import Mathlib

/-!
Shallow embedding of `src/read_lines.py`, a command-line utility that
prints a contiguous range of lines from a text file.

The file system is modelled as a map from paths to a `FileState`:
absent (opening raises FileNotFoundError, which the code catches),
unreadable (opening raises some other OSError, e.g. PermissionError,
which the code does not catch), or present with a raw content string.

`read_lines` returns a `RunResult`: the text written to standard output
together with a flag recording whether an unhandled exception escaped
(Python's IndexError / ValueError / PermissionError all count; the model
does not distinguish them, only "generic unhandled failure").
-/

/-- State of a path in the modelled file system. -/
inductive FileState where
  | absent
  | unreadable
  | content (s : String)
deriving DecidableEq

/-- The file system: a map from paths to file states. -/
def FS : Type := String → FileState

/-- Result of a run: the text written to stdout, and whether an
unhandled exception escaped (true = crashed). -/
structure RunResult where
  out : String
  crashed : Bool
deriving DecidableEq

/-- Python sequence indexing `l[i]`: negative indices count from the
end; out-of-range access returns `none` (IndexError). -/
def pyGet {α : Type} (l : List α) (i : Int) : Option α :=
  let j : Int := if i < 0 then i + l.length else i
  if 0 ≤ j then l.get? j.toNat else none

/-- Python `range(a, b)` as a list of integers `a, a+1, ..., b-1`. -/
def intRange (a b : Int) : List Int :=
  (List.range (b - a).toNat).map (fun k => a + Int.ofNat k)

/-- `f.readlines()` splitting: helper over the character list, keeping
each line's trailing newline; a final segment without a newline is kept
as a last line; an empty tail yields no extra line. -/
def splitAux (acc : List Char) : List Char → List String
  | [] => if acc.isEmpty then [] else [⟨acc.reverse⟩]
  | c :: rest =>
      if c = '\n' then ⟨(c :: acc).reverse⟩ :: splitAux [] rest
      else splitAux (c :: acc) rest

/-- `f.readlines()` on the raw file content. -/
def readlines (s : String) : List String :=
  splitAux [] s.data

/-- The `for i in range(start_index, ...)` loop body: print each
`lines[i]` with `end=''`; an out-of-range index raises IndexError,
discarding nothing already printed. -/
def emitLoop (l : List String) : List Int → RunResult
  | [] => ⟨"", false⟩
  | i :: rest =>
      match pyGet l i with
      | none => ⟨"", true⟩
      | some s =>
          let r := emitLoop l rest
          ⟨s ++ r.out, r.crashed⟩

/-- `read_lines(filepath, start_line, num_lines)` from
`src/read_lines.py`: open the file (catching only FileNotFoundError),
split into lines, print the out-of-range diagnostic if
`start_index >= len(lines)`, otherwise print
`lines[start_index : min(start_index + num_lines, len(lines))]`
with no separator.  Each diagnostic goes through `print`, which appends
a newline. -/
def read_lines (fs : FS) (filepath : String) (start_line num_lines : Int) :
    RunResult :=
  match fs filepath with
  | FileState.absent => ⟨s!"File {filepath} not found.\n", false⟩
  | FileState.unreadable => ⟨"", true⟩
  | FileState.content c =>
      let lines := readlines c
      let start_index := start_line - 1
      let end_index := start_index + num_lines
      if start_index ≥ (lines.length : Int) then
        ⟨s!"Start line {start_line} is beyond file length.\n", false⟩
      else
        emitLoop lines (intRange start_index (min end_index lines.length))

/-- Python's whitespace test used by `int()` argument stripping. -/
def isPySpace (c : Char) : Bool :=
  c = ' ' ∨ c = '\t' ∨ c = '\n' ∨ c = '\r' ∨ c = '\x0b' ∨ c = '\x0c'

/-- Python's `int(s)` on a decimal string: optional surrounding
whitespace, optional sign, then a nonempty digit run; anything else
raises ValueError (`none`).  (Digit-group underscores are not
modelled; no claim exercises them.) -/
def pyInt (s : String) : Option Int :=
  let t := ((s.data.dropWhile isPySpace).reverse.dropWhile isPySpace).reverse
  let core : List Char × Bool :=
    match t with
    | '-' :: rest => (rest, true)
    | '+' :: rest => (rest, false)
    | _ => (t, false)
  if core.1 = [] ∨ ¬ core.1.all Char.isDigit then none
  else
    let n : Nat := core.1.foldl (fun acc d => 10 * acc + (d.toNat - 48)) 0
    some (if core.2 then -(n : Int) else (n : Int))

/-- The `__main__` block: if `len(sys.argv) < 3` print the usage line,
else evaluate `read_lines(sys.argv[1], int(sys.argv[2]),
int(sys.argv[3]))`; a missing argument (IndexError) or an unparseable
integer (ValueError) is an unhandled crash with nothing printed. -/
def py_main (fs : FS) (argv : List String) : RunResult :=
  if argv.length < 3 then
    ⟨"Usage: python read_lines.py <filepath> <start_line> <num_lines>\n", false⟩
  else
    match argv.get? 1, argv.get? 2, argv.get? 3 with
    | some fp, some a2, some a3 =>
        (match pyInt a2 with
         | none => ⟨"", true⟩
         | some sl =>
             match pyInt a3 with
             | none => ⟨"", true⟩
             | some nl => read_lines fs fp sl nl)
    | _, _, _ => ⟨"", true⟩

/-- A concrete file system used to instantiate the theorems: `a.txt`
holds three newline-terminated lines; every other path is absent. -/
def fsSample : FS :=
  fun p => if p = "a.txt" then FileState.content "one\ntwo\nthree\n" else FileState.absent

/-! ### Basic lemmas about the loop and `intRange` -/

/-- Two strings with the same character data are equal. -/
theorem string_eq_of_data {s t : String} (h : s.data = t.data) : s = t := by
  cases s
  cases t
  exact congrArg String.mk h

/-- `String.join` over a cons. -/
theorem join_cons (s : String) (l : List String) :
    String.join (s :: l) = s ++ String.join l := by
  apply string_eq_of_data
  simp

/-- An empty integer range. -/
theorem intRange_eq_nil {a b : Int} (h : b ≤ a) : intRange a b = [] := by
  unfold intRange
  have h0 : (b - a).toNat = 0 := by omega
  simp [h0]

/-- Peeling the first index off a nonempty integer range. -/
theorem intRange_cons {a b : Int} (h : a < b) :
    intRange a b = a :: intRange (a + 1) b := by
  unfold intRange
  have h1 : (b - a).toNat = (b - (a + 1)).toNat + 1 := by omega
  rw [h1, List.range_succ_eq_map, List.map_cons, List.map_map]
  congr 1
  · simp
  · apply List.map_congr_left
    intro k _
    simp only [Function.comp_apply, Int.ofNat_eq_natCast]
    push_cast
    ring

/-- If every index in the list is in range, the loop prints the
corresponding entries in order and does not crash. -/
theorem emitLoop_ok (l : List String) (idxs : List Int)
    (h : ∀ i ∈ idxs, (pyGet l i).isSome) :
    emitLoop l idxs =
      ⟨String.join (idxs.map (fun i => (pyGet l i).getD "")), false⟩ := by
  induction idxs with
  | nil => rfl
  | cons i rest ih =>
      have hi : (pyGet l i).isSome := h i (List.mem_cons_self i rest)
      obtain ⟨s, hs⟩ := Option.isSome_iff_exists.mp hi
      have hrest : ∀ j ∈ rest, (pyGet l j).isSome := by
        intro j hj
        exact h j (List.mem_cons_of_mem i hj)
      simp only [emitLoop, hs]
      rw [ih hrest]
      simp only [List.map_cons, join_cons, hs]
      simp

/-- A nonnegative index resolves by plain list lookup. -/
theorem pyGet_natCast {α : Type} (l : List α) (a : Nat) :
    pyGet l (a : Int) = l.get? a := by
  unfold pyGet
  have h0 : ¬ ((a : Int) < 0) := by omega
  simp [h0]

/-- The loop over `range(a, min(a + c, len(l)))` for a nonnegative
start prints exactly the slice `l[a : a + c]` and does not crash. -/
theorem emitLoop_slice (c : Nat) :
    ∀ (a : Nat) (l : List String),
      emitLoop l (intRange (a : Int) (min ((a : Int) + (c : Int)) l.length)) =
        ⟨String.join ((l.drop a).take c), false⟩ := by
  induction c with
  | zero =>
      intro a l
      rw [intRange_eq_nil (by omega)]
      simp [emitLoop, String.join]
  | succ c ih =>
      intro a l
      by_cases hal : a < l.length
      · have hlt : (a : Int) < min ((a : Int) + ((c + 1 : Nat) : Int)) (l.length : Int) := by
          push_cast
          omega
        rw [intRange_cons hlt]
        have ih' := ih (a + 1) l
        have e1 : ((a + 1 : Nat) : Int) = (a : Int) + 1 := by push_cast; ring
        rw [e1] at ih'
        have e2 : min ((a : Int) + ((c + 1 : Nat) : Int)) (l.length : Int) =
            min (((a : Int) + 1) + (c : Int)) (l.length : Int) := by
          push_cast
          omega
        rw [e2]
        have hget : pyGet l (a : Int) = some (l.get ⟨a, hal⟩) := by
          rw [pyGet_natCast]
          exact List.get?_eq_get hal
        simp only [emitLoop, hget]
        rw [ih']
        have hdrop : l.drop a = l.get ⟨a, hal⟩ :: l.drop (a + 1) :=
          List.drop_eq_getElem_cons hal
        rw [hdrop, List.take_succ_cons, join_cons]
      · rw [intRange_eq_nil (by omega)]
        have hnil : l.drop a = [] := List.drop_eq_nil_of_le (by omega)
        simp [emitLoop, hnil, String.join]

/-- A negative index with enough room resolves by wrap-around lookup. -/
theorem pyGet_neg {α : Type} (l : List α) (i : Int) (h1 : i < 0)
    (h2 : 0 ≤ i + l.length) :
    pyGet l i = l.get? (i + l.length).toNat := by
  unfold pyGet
  rw [if_pos h1, if_pos h2]

/-- Any index in `[-len, len)` resolves to some element. -/
theorem pyGet_isSome {α : Type} (l : List α) (i : Int)
    (h1 : -(l.length : Int) ≤ i) (h2 : i < (l.length : Int)) :
    (pyGet l i).isSome := by
  unfold pyGet
  by_cases hneg : i < 0
  · have h0 : (0 : Int) ≤ i + l.length := by omega
    have hlt : (i + (l.length : Int)).toNat < l.length := by omega
    simp [hneg, h0, hlt]
  · have h0 : (0 : Int) ≤ i := by omega
    have hlt : i.toNat < l.length := by omega
    simp [hneg, h0, hlt]

/-- Bounds of membership in an integer range. -/
theorem mem_intRange {a b i : Int} (h : i ∈ intRange a b) : a ≤ i ∧ i < b := by
  unfold intRange at h
  simp only [List.mem_map, List.mem_range] at h
  obtain ⟨k, hk, rfl⟩ := h
  simp only [Int.ofNat_eq_natCast]
  omega

/-! ### Claim theorems -/

/-- C1: for an existing file with `N` lines, a start line `s` with
`1 ≤ s ≤ N` and a count `c ≥ 0`, `read_lines` writes exactly the file's
lines at 1-indexed positions `s .. s+c-1` — the slice
`(drop (s-1)).take c` — concatenated verbatim with no separator and no
crash, and that slice holds exactly `min(c, N - s + 1)` lines. -/
theorem C1_slice_output (fs : FS) (path content : String) (s c : Int)
    (hfs : fs path = FileState.content content)
    (hs1 : 1 ≤ s) (hsN : s ≤ ((readlines content).length : Int)) (hc : 0 ≤ c) :
    read_lines fs path s c =
      ⟨String.join (((readlines content).drop (s - 1).toNat).take c.toNat),
        false⟩ ∧
    (((readlines content).drop (s - 1).toNat).take c.toNat).length =
      min c.toNat ((readlines content).length - (s - 1).toNat) := by
  refine ⟨?out, by simp⟩
  unfold read_lines
  rw [hfs]
  dsimp only
  rw [if_neg (by omega)]
  obtain ⟨a, ha⟩ : ∃ a : Nat, s - 1 = (a : Int) := ⟨(s - 1).toNat, by omega⟩
  obtain ⟨n, hn⟩ : ∃ n : Nat, c = (n : Int) := ⟨c.toNat, by omega⟩
  have ea : (s - 1).toNat = a := by omega
  have en : c.toNat = n := by omega
  rw [ea, en, ha, hn]
  exact emitLoop_slice n a (readlines content)

/-- C1 witness: on a three-line file, lines 2..3 are printed verbatim. -/
theorem C1_slice_output_witness :
    read_lines fsSample "a.txt" 2 2 = ⟨"two\nthree\n", false⟩ := by
  have h := C1_slice_output fsSample "a.txt" "one\ntwo\nthree\n" 2 2
    (by rfl) (by decide) (by decide) (by decide)
  rw [h.1]
  rfl

/-- C2: for an existing file with `N` lines and a start line `s ≥ 1`
with `s > N`, `read_lines` writes exactly the out-of-range diagnostic
line (for any count) and does not crash. -/
theorem C2_beyond_length (fs : FS) (path content : String) (s c : Int)
    (hfs : fs path = FileState.content content)
    (hs1 : 1 ≤ s) (hsN : ((readlines content).length : Int) < s) :
    read_lines fs path s c =
      ⟨s!"Start line {s} is beyond file length.\n", false⟩ := by
  unfold read_lines
  rw [hfs]
  dsimp only
  rw [if_pos (by omega)]

/-- C2 witness: start line 5 on a three-line file gives the diagnostic. -/
theorem C2_beyond_length_witness :
    read_lines fsSample "a.txt" 5 1 =
      ⟨"Start line 5 is beyond file length.\n", false⟩ := by
  have h := C2_beyond_length fsSample "a.txt" "one\ntwo\nthree\n" 5 1
    (by rfl) (by decide) (by decide)
  rw [h]
  rfl

/-- C3: for a path that is not an existing file, `read_lines` writes
exactly the not-found diagnostic, no file content, and does not crash,
for all integer arguments. -/
theorem C3_not_found (fs : FS) (path : String) (s c : Int)
    (hfs : fs path = FileState.absent) :
    read_lines fs path s c = ⟨s!"File {path} not found.\n", false⟩ := by
  unfold read_lines
  rw [hfs]

/-- C3 witness: a missing path yields exactly the not-found line. -/
theorem C3_not_found_witness :
    read_lines fsSample "missing.txt" 1 1 =
      ⟨"File missing.txt not found.\n", false⟩ := by
  have h := C3_not_found fsSample "missing.txt" 1 1 (by rfl)
  rw [h]
  rfl

/-- C5: for an existing file and a start line within the file,
a count of zero produces no output at all and no crash. -/
theorem C5_zero_count (fs : FS) (path content : String) (s : Int)
    (hfs : fs path = FileState.content content)
    (hs1 : 1 ≤ s) (hsN : s ≤ ((readlines content).length : Int)) :
    read_lines fs path s 0 = ⟨"", false⟩ := by
  unfold read_lines
  rw [hfs]
  dsimp only
  rw [if_neg (by omega)]
  have hmin : min (s - 1 + 0) ((readlines content).length : Int) = s - 1 := by
    omega
  rw [hmin, intRange_eq_nil (le_refl (s - 1))]
  rfl

/-- C5 witness: count 0 at start line 1 of a three-line file prints
nothing. -/
theorem C5_zero_count_witness :
    read_lines fsSample "a.txt" 1 0 = ⟨"", false⟩ := by
  have h := C5_zero_count fsSample "a.txt" "one\ntwo\nthree\n" 1
    (by rfl) (by decide) (by decide)
  rw [h]

/-- C4 (code bug evidence): with exactly two positional arguments
(`sys.argv` of length 3) the guard `len(sys.argv) < 3` is false, so the
program evaluates `sys.argv[3]`, raises an unhandled IndexError, and
prints nothing — in particular not the usage line the design calls
for. -/
theorem C4_two_args_crash :
    py_main (fun _ => FileState.absent) ["read_lines.py", "a.txt", "2"] =
      ⟨"", true⟩ ∧
    (py_main (fun _ => FileState.absent) ["read_lines.py", "a.txt", "2"]).out ≠
      "Usage: python read_lines.py <filepath> <start_line> <num_lines>\n" := by
  refine ⟨rfl, ?ne⟩
  decide

/-- C6: `read_lines` is deterministic — two invocations with identical
arguments over the same file system produce the same result. -/
theorem C6_deterministic (fs : FS) (path : String) (s c : Int)
    (r₁ r₂ : RunResult)
    (h₁ : read_lines fs path s c = r₁) (h₂ : read_lines fs path s c = r₂) :
    r₁ = r₂ := by
  rw [← h₁, ← h₂]

/-- C6 witness: two identical runs on the sample file agree. -/
theorem C6_deterministic_witness :
    (⟨"two\nthree\n", false⟩ : RunResult) = ⟨"two\nthree\n", false⟩ :=
  C6_deterministic fsSample "a.txt" 2 2
    ⟨"two\nthree\n", false⟩ ⟨"two\nthree\n", false⟩ rfl rfl

/-- C7: the only caught exception is FileNotFoundError.  A read failure
other than not-found (modelled as an `unreadable` path) propagates as a
generic unhandled failure with no diagnostic printed, and an argument
that does not parse as an integer (with all three arguments supplied)
likewise crashes the program with nothing printed. -/
theorem C7_unhandled_faults :
    (∀ (fs : FS) (path : String) (s c : Int),
        fs path = FileState.unreadable →
        read_lines fs path s c = ⟨"", true⟩) ∧
    (∀ (fs : FS) (argv : List String) (a2 a3 : String),
        4 ≤ argv.length → argv.get? 2 = some a2 → argv.get? 3 = some a3 →
        (pyInt a2 = none ∨ pyInt a3 = none) →
        py_main fs argv = ⟨"", true⟩) := by
  constructor
  · intro fs path s c h
    unfold read_lines
    rw [h]
  · intro fs argv a2 a3 hlen h2 h3 hparse
    unfold py_main
    rw [if_neg (by omega)]
    have h1 : ∃ fp, argv.get? 1 = some fp := by
      have : 1 < argv.length := by omega
      exact ⟨argv.get ⟨1, this⟩, List.get?_eq_get this⟩
    obtain ⟨fp, h1⟩ := h1
    rw [h1, h2, h3]
    dsimp only
    rcases hparse with hp | hp
    · rw [hp]
    · cases hq : pyInt a2 with
      | none => rfl
      | some sl =>
          dsimp only
          rw [hp]

/-- C7 witness: a permission-style failure and an unparseable
start-line argument both crash with no output. -/
theorem C7_unhandled_faults_witness :
    read_lines (fun _ => FileState.unreadable) "p.txt" 1 1 = ⟨"", true⟩ ∧
    py_main (fun _ => FileState.unreadable)
      ["read_lines.py", "p.txt", "x", "1"] = ⟨"", true⟩ :=
  ⟨C7_unhandled_faults.1 (fun _ => FileState.unreadable) "p.txt" 1 1 rfl,
   C7_unhandled_faults.2 (fun _ => FileState.unreadable)
     ["read_lines.py", "p.txt", "x", "1"] "x" "1"
     (by decide) rfl rfl (Or.inl (by decide))⟩

/-- C8: with three or more positional arguments (`sys.argv` of length
at least 4), only `sys.argv[1..3]` are used: two invocations agreeing
on those three arguments over the same file system produce identical
output, whatever extra trailing arguments they carry. -/
theorem C8_extra_args_ignored (fs : FS) (argv argv' : List String)
    (hlen : 4 ≤ argv.length) (hlen' : 4 ≤ argv'.length)
    (e1 : argv.get? 1 = argv'.get? 1) (e2 : argv.get? 2 = argv'.get? 2)
    (e3 : argv.get? 3 = argv'.get? 3) :
    py_main fs argv = py_main fs argv' := by
  unfold py_main
  rw [if_neg (by omega), if_neg (by omega), ← e1, ← e2, ← e3]

/-- C8 witness: one extra trailing argument changes nothing. -/
theorem C8_extra_args_ignored_witness :
    py_main fsSample ["read_lines.py", "a.txt", "2", "2"] =
      py_main fsSample ["read_lines.py", "a.txt", "2", "2", "extra"] :=
  C8_extra_args_ignored fsSample
    ["read_lines.py", "a.txt", "2", "2"]
    ["read_lines.py", "a.txt", "2", "2", "extra"]
    (by decide) (by decide) rfl rfl rfl

/-- C9: for an existing empty file (zero lines), every start line
`s ≥ 1` and every count `c ≥ 0`, `read_lines` prints the out-of-range
diagnostic and no content — even for `s = 1` with `c = 0`. -/
theorem C9_empty_file (fs : FS) (path : String) (s c : Int)
    (hfs : fs path = FileState.content "")
    (hs1 : 1 ≤ s) (hc : 0 ≤ c) :
    read_lines fs path s c =
      ⟨s!"Start line {s} is beyond file length.\n", false⟩ := by
  unfold read_lines
  rw [hfs]
  dsimp only
  have hlen : (readlines "").length = 0 := rfl
  rw [if_pos (by rw [hlen]; omega)]

/-- C9 witness: start line 1, count 0, on an empty file still gives
the diagnostic. -/
theorem C9_empty_file_witness :
    read_lines (fun _ => FileState.content "") "e.txt" 1 0 =
      ⟨"Start line 1 is beyond file length.\n", false⟩ := by
  have h := C9_empty_file (fun _ => FileState.content "") "e.txt" 1 0
    rfl (by decide) (by decide)
  rw [h]
  rfl

/-- C10: no validation is performed for start lines below 1 and
Python's negative indexing applies: for a nonempty file with `N`
lines, `read_lines` with start line 0 and count `c ≥ 1` first emits
line `N` (the last line, via index `-1`) and then the lines from the
beginning of the file up to line `c - 1` (clipped at the end of the
file, per the general emission rule); more generally, for
`1 - N ≤ s ≤ 0` the first line emitted is line `N + s` of the file,
with no diagnostic and no error. -/
theorem C10_negative_start (fs : FS) (path content : String) (c : Int)
    (hfs : fs path = FileState.content content)
    (hN : 1 ≤ (readlines content).length) (hc : 1 ≤ c) :
    read_lines fs path 0 c =
      ⟨(readlines content).get ⟨(readlines content).length - 1, by omega⟩ ++
         String.join ((readlines content).take (c - 1).toNat), false⟩ ∧
    (∀ (s : Int) (hs1 : 1 - ((readlines content).length : Int) ≤ s)
        (hs2 : s ≤ 0),
      ∃ rest : String,
        read_lines fs path s c =
          ⟨(readlines content).get
              ⟨(((readlines content).length : Int) + s - 1).toNat, by omega⟩ ++
             rest, false⟩) := by
  constructor
  · unfold read_lines
    rw [hfs]
    dsimp only
    rw [if_neg (by omega)]
    have hlt : (0 : Int) - 1 <
        min ((0 : Int) - 1 + c) ((readlines content).length : Int) := by omega
    rw [intRange_cons hlt]
    have hget : pyGet (readlines content) ((0 : Int) - 1) =
        some ((readlines content).get
          ⟨(readlines content).length - 1, by omega⟩) := by
      rw [pyGet_neg _ _ (by omega) (by omega)]
      have ht : ((0 : Int) - 1 + ((readlines content).length : Int)).toNat =
          (readlines content).length - 1 := by omega
      rw [ht]
      exact List.get?_eq_get (by omega)
    obtain ⟨n, hn⟩ : ∃ n : Nat, c - 1 = (n : Int) := ⟨(c - 1).toNat, by omega⟩
    have e0 : (0 : Int) - 1 + 1 = ((0 : Nat) : Int) := by norm_num
    have em : min ((0 : Int) - 1 + c) ((readlines content).length : Int) =
        min (((0 : Nat) : Int) + (n : Int)) ((readlines content).length : Int) := by
      push_cast
      omega
    have et : (c - 1).toNat = n := by omega
    simp only [emitLoop, hget]
    rw [e0, em, emitLoop_slice n 0 (readlines content), et]
    simp
  · intro s hs1 hs2
    unfold read_lines
    rw [hfs]
    dsimp only
    rw [if_neg (by omega)]
    have hlt : s - 1 < min (s - 1 + c) ((readlines content).length : Int) := by
      omega
    rw [intRange_cons hlt]
    have hget : pyGet (readlines content) (s - 1) =
        some ((readlines content).get
          ⟨(((readlines content).length : Int) + s - 1).toNat, by omega⟩) := by
      rw [pyGet_neg _ _ (by omega) (by omega)]
      have ht : (s - 1 + ((readlines content).length : Int)).toNat =
          (((readlines content).length : Int) + s - 1).toNat := by omega
      rw [ht]
      exact List.get?_eq_get (by omega)
    have hvalid : ∀ i ∈ intRange (s - 1 + 1)
        (min (s - 1 + c) ((readlines content).length : Int)),
        (pyGet (readlines content) i).isSome := by
      intro i hi
      have hb := mem_intRange hi
      exact pyGet_isSome _ i (by omega) (by omega)
    simp only [emitLoop, hget]
    rw [emitLoop_ok _ _ hvalid]
    exact ⟨_, rfl⟩

/-- C10 witness: on the three-line sample file, start line 0 with
count 3 prints the last line then the first two, and start line `-1`
starts at line 2. -/
theorem C10_negative_start_witness :
    read_lines fsSample "a.txt" 0 3 = ⟨"three\none\ntwo\n", false⟩ ∧
    ∃ rest : String,
      read_lines fsSample "a.txt" (-1) 3 = ⟨"two\n" ++ rest, false⟩ := by
  have h := C10_negative_start fsSample "a.txt" "one\ntwo\nthree\n" 3
    (by rfl) (by decide) (by decide)
  constructor
  · rw [h.1]
    rfl
  · obtain ⟨rest, hr⟩ := h.2 (-1) (by decide) (by decide)
    exact ⟨rest, hr⟩
